import Mathlib

/-!
Verification of the prompt template engine of this repository
(`src/unnamed/part_003`, mirrored in `src/lib/prompt-core.ts`): the
placeholder substitutor `createPrompt`, the diagnostic-text synthesiser
`generateDiagnosticText`, the structural enhancer `createAdvancedPrompt`,
the context injector `addMCPContext`, the template registry
`supportPrompt.get/create` and the full pipeline `createMCPEnhancedPrompt`.

Strings are modelled by Lean `String` (a list of unicode scalar values);
the JavaScript regular expression `/\$\{(.*?)\}/g` is modelled by an
explicit scan over the character list, where `.` matches every character
except the four JavaScript line terminators.  JavaScript exceptions are
modelled by `Except`: the only two places the engine can throw are the
unknown-prompt-kind lookup (`supportPromptConfigs[type].template` on an
absent kind) and `diagnostics.map` when a non-empty plain string is stored
under the reserved `diagnostics` key.
-/

set_option linter.unusedVariables false
set_option maxRecDepth 100000

/-- An apostrophe character, used to spell string literals containing one. -/
def apos : String := (Char.ofNat 39).toString

/-- The literal `"${"`, the two characters that open a placeholder token. -/
def tokOpen : String := "$\x7b"

/-- The literal `"}"`, the character that closes a placeholder token. -/
def closeBrace : String := "\x7d"

/-- The placeholder token `"${k}"` for body `k`. -/
def tok (k : String) : String := tokOpen ++ k ++ closeBrace

/-- One diagnostic record as consumed by `generateDiagnosticText`
(part_003 lines 4-9): `source` and `code` are optional, `message` is
required. -/
structure Diagnostic where
  source : Option String
  message : String
  code : Option String
deriving DecidableEq

/-- A parameter value of `PromptParams = Record<string, string | any[]>`:
a plain string, an array of strings, or (under the reserved key
`"diagnostics"`) an array of diagnostic records. -/
inductive PValue where
  | str : String → PValue
  | list : List String → PValue
  | diags : List Diagnostic → PValue
deriving DecidableEq

/-- A parameter mapping: association list from key to value (a JavaScript
object has at most one entry per key; lookup returns the first match). -/
def ParamMap := List (String × PValue)

/-- Property lookup on an association list, modelling
`Object.prototype.hasOwnProperty.call(params, key)` / `params[key]`. -/
def assocLookup {α : Type} : List (String × α) → String → Option α
  | [], _ => none
  | (k, v) :: rest, key => if k = key then some v else assocLookup rest key

/-- The two run-time errors the engine can raise, both `TypeError`s in
JavaScript: reading `.template` of `undefined` for an unrecognised prompt
kind (spec name `UnknownPromptKind`), and calling `.map` on a non-empty
plain string stored under the reserved `diagnostics` key. -/
inductive EngineError where
  | unknownPromptKind : EngineError
  | diagnosticsNotAList : EngineError
deriving DecidableEq

deriving instance DecidableEq for Except

/-- JavaScript `a || b` on an optional string: the default is used when the
value is absent or the empty string (falsy). -/
def jsOrElse (o : Option String) (dflt : String) : String :=
  match o with
  | some s => if s.isEmpty then dflt else s
  | none => dflt

/-- One line of diagnostic text (part_003 line 7):
`- [${d.source || "Error"}] ${d.message}${d.code ? \` (${d.code})\` : ""}`. -/
def diagLine (d : Diagnostic) : String :=
  "- [" ++ jsOrElse d.source "Error" ++ "] " ++ d.message ++
    (match d.code with
     | some c => if c.isEmpty then "" else " (" ++ c ++ ")"
     | none => "")

/-- Source: `generateDiagnosticText` (part_003 lines 4-9) applied to an
actual array of diagnostic records. -/
def generateDiagnosticText (ds : List Diagnostic) : String :=
  if ds.isEmpty then ""
  else "\nCurrent problems detected:\n" ++ String.intercalate "\n" (ds.map diagLine)

/-- `generateDiagnosticText(params["diagnostics"])` for every shape the
value under the reserved key can take.  Absent and empty-string values are
falsy (`!diagnostics?.length`) and yield `""`; a non-empty plain string
throws `TypeError` at `diagnostics.map`; an array of plain strings is
mapped permissively (each element has neither `source`, `message` nor
`code`, so JavaScript renders `- [Error] undefined`). -/
def gdtOfValue : Option PValue → Except EngineError String
  | none => .ok ""
  | some (.diags ds) => .ok (generateDiagnosticText ds)
  | some (.str s) => if s.isEmpty then .ok "" else .error .diagnosticsNotAList
  | some (.list ls) =>
    .ok (if ls.isEmpty then ""
         else "\nCurrent problems detected:\n" ++
           String.intercalate "\n" (ls.map fun _ => "- [Error] undefined"))

/-- Rendering of a parameter value found by rule 2 of the resolution
(part_003 lines 17-26): a string verbatim, an array joined with `"\n"`,
and a diagnostics array joined like any other array (JavaScript stringifies
each record to `[object Object]`). -/
def renderValue : PValue → String
  | .str s => s
  | .list ls => String.intercalate "\n" ls
  | .diags ds => String.intercalate "\n" (ds.map fun _ => "[object Object]")

/-- Resolution of one matched placeholder body (the replacer callback,
part_003 lines 12-30): `diagnosticText` synthesises from
`params["diagnostics"]`; otherwise a key present in the map renders its
value and an absent key renders the empty string. -/
def resolveKey (p : ParamMap) (key : String) : Except EngineError String :=
  if key = "diagnosticText" then gdtOfValue (assocLookup p "diagnostics")
  else
    match assocLookup p key with
    | some v => .ok (renderValue v)
    | none => .ok ""

/-- The four JavaScript line terminators, the characters `.` does not
match in the pattern `/\$\{(.*?)\}/g`. -/
def lineTermB (c : Char) : Bool :=
  c == '\n' || c == '\r' || c == Char.ofNat 0x2028 || c == Char.ofNat 0x2029

/-- Scan for the body of a placeholder after `"${"` has been consumed:
the lazy group `(.*?)` followed by `\}` matches the characters up to the
first `'}'`, provided no line terminator comes first.  Returns the body
and the remaining input, or `none` when the match attempt fails. -/
def findBody : List Char → Option (List Char × List Char)
  | [] => none
  | c :: rest =>
    if c == '}' then some ([], rest)
    else if lineTermB c then none
    else
      match findBody rest with
      | some (b, r) => some (c :: b, r)
      | none => none

/-- One left-to-right pass of `template.replace(/\$\{(.*?)\}/g, ...)`
over the character list, with explicit fuel (the scan consumes at least
one character per step, so fuel equal to the length of the input always
suffices; the fuel-exhausted branch is unreachable then). -/
def substRun (p : ParamMap) : Nat → List Char → Except EngineError String
  | _, [] => .ok ""
  | 0, l => .ok (String.mk l)
  | n + 1, c :: rest =>
    if c = '$' then
      match rest with
      | [] => .ok c.toString
      | c2 :: rest2 =>
        if c2 = '{' then
          match findBody rest2 with
          | some (body, rest') =>
            match resolveKey p (String.mk body) with
            | .error e => .error e
            | .ok v =>
              match substRun p n rest' with
              | .error e => .error e
              | .ok s => .ok (v ++ s)
          | none =>
            match substRun p n rest2 with
            | .error e => .error e
            | .ok s => .ok (tokOpen ++ s)
        else
          match substRun p n (c2 :: rest2) with
          | .error e => .error e
          | .ok s => .ok (c.toString ++ s)
    else
      match substRun p n rest with
      | .error e => .error e
      | .ok s => .ok (c.toString ++ s)

/-- Source: `createPrompt` (part_003 lines 11-32 and
src/lib/prompt-core.ts lines 11-32): replace every `${...}` token of the
template, left to right, single pass, resolving each body with
`resolveKey`. -/
def createPrompt (template : String) (p : ParamMap) : Except EngineError String :=
  substRun p template.data.length template.data

/-- The list of placeholder bodies matched in a template, in order:
`template.match(/\$\{(.*?)\}/g)?.map(m => m.slice(2, -1)) || []`
(part_003 line 54), with the same fuel discipline as `substRun`. -/
def extractRun : Nat → List Char → List String
  | _, [] => []
  | 0, _ => []
  | n + 1, c :: rest =>
    if c = '$' then
      match rest with
      | [] => []
      | c2 :: rest2 =>
        if c2 = '{' then
          match findBody rest2 with
          | some (body, rest') => String.mk body :: extractRun n rest'
          | none => extractRun n rest2
        else extractRun n (c2 :: rest2)
    else extractRun n rest

/-- All placeholder bodies occurring in a template. -/
def extractTokens (template : String) : List String :=
  extractRun template.data.length template.data

/-- Source: the input-validation step of `createAdvancedPrompt`
(part_003 lines 53-59), which computes the placeholder bodies missing from
the parameter map (excluding `diagnosticText`) and reports them with
`console.warn`, an observability-only effect with no influence on the
returned string. -/
def missingParams (template : String) (p : ParamMap) : List String :=
  (extractTokens template).filter fun k =>
    (assocLookup p k).isNone && k != "diagnosticText"

/-- One code-quality issue (part_003 lines 84-90). -/
structure QualityIssue where
  category : String
  severity : String
  message : String
  file : Option String
  line : Option Int

/-- Aggregate quality metrics (part_003 lines 91-96). -/
structure QualityMetrics where
  grade : String
  coverage : ℚ
  duplication : ℚ
  complexity : ℚ

/-- The `codeQuality` section of the context payload. -/
structure CodeQuality where
  issues : List QualityIssue
  metrics : Option QualityMetrics

/-- One security vulnerability (part_003 lines 99-104); `severity` is one
of the strings Low, Medium, High, Critical. -/
structure Vulnerability where
  severity : String
  category : String
  description : String
  remediation : Option String

/-- The `security` section of the context payload; `scanTypes` is carried
but never read by `addMCPContext`. -/
structure SecurityCtx where
  vulnerabilities : List Vulnerability
  scanTypes : Option (List String)

/-- One GitHub notification (part_003 lines 108-113). -/
structure GitHubNotification where
  type : String
  subject : String
  repository : String
  updated_at : String

/-- One GitHub pull request (part_003 lines 114-118). -/
structure GitHubPullRequest where
  title : String
  status : String
  url : String

/-- One GitHub issue (part_003 lines 119-123). -/
structure GitHubIssue where
  title : String
  status : String
  labels : List String

/-- The `github` section of the context payload. -/
structure GitHubCtx where
  notifications : Option (List GitHubNotification)
  pullRequests : Option (List GitHubPullRequest)
  issues : Option (List GitHubIssue)

/-- The `reasoning` section (part_003 lines 125-130); all four fields are
declared required in the interface, and the renderer tests each for
JavaScript truthiness (non-empty string, non-zero number). -/
structure Reasoning where
  thinking_process : String
  hypothesis : String
  verification : String
  confidence_level : ℚ

/-- The external-context payload `MCPContext` (part_003 lines 82-131). -/
structure MCPContext where
  codeQuality : Option CodeQuality
  security : Option SecurityCtx
  github : Option GitHubCtx
  reasoning : Option Reasoning

/-- Stringification of the numbers interpolated by `addMCPContext`
(metrics percentages, confidence times 100).  It agrees with JavaScript
number-to-string conversion on integral values, the only values the
verified statements evaluate it at; non-integral rationals are rendered
as a fraction, standing in for the decimal expansion JavaScript would
print. -/
def numStr (q : ℚ) : String :=
  if q.den = 1 then toString q.num else toString q.num ++ "/" ++ toString q.den

/-- Rendering of one quality issue with its optional `File:` sub-line
(part_003 lines 141-142); `issue.file` and `issue.line` are tested for
truthiness, so an empty file name or a line number of 0 renders nothing. -/
def issueLine (i : QualityIssue) : String :=
  "- **" ++ i.severity ++ "** (" ++ i.category ++ "): " ++ i.message ++ "\n" ++
    (match i.file with
     | some f =>
       if f.isEmpty then ""
       else "  File: " ++ f ++
         (match i.line with
          | some l => if l = 0 then "" else ":" ++ toString l
          | none => "") ++ "\n"
     | none => "")

/-- The four metric lines (part_003 lines 146-147). -/
def metricsLines (m : QualityMetrics) : String :=
  "- Grade: " ++ m.grade ++ "\n- Coverage: " ++ numStr m.coverage ++
    "%\n- Duplication: " ++ numStr m.duplication ++ "%\n- Complexity: " ++
    numStr m.complexity ++ "\n"

/-- The code-quality block (part_003 lines 138-150): emitted only when the
issues list is non-empty; the `**Quality Metrics:**` heading is appended
unconditionally inside the block, and the metric value lines only when the
metrics object is present. -/
def qualityPart (c : MCPContext) : String :=
  match c.codeQuality with
  | none => ""
  | some q =>
    if q.issues.isEmpty then ""
    else
      "\n\n<code_quality_context>\n**CURRENT CODE QUALITY ISSUES TO ADDRESS:**\n" ++
        String.join (q.issues.map issueLine) ++
        "\n**Quality Metrics:**\n" ++
        (match q.metrics with
         | some m => metricsLines m
         | none => "") ++
        "\nPlease address these quality issues in your recommendations.\n</code_quality_context>"

/-- Rendering of one vulnerability with its optional remediation sub-line
(part_003 lines 156-157). -/
def vulnLine (v : Vulnerability) : String :=
  "- **" ++ v.severity ++ "** (" ++ v.category ++ "): " ++ v.description ++ "\n" ++
    (match v.remediation with
     | some r => if r.isEmpty then "" else "  Remediation: " ++ r ++ "\n"
     | none => "")

/-- The security block (part_003 lines 153-160): emitted only when the
vulnerabilities list is non-empty. -/
def securityPart (c : MCPContext) : String :=
  match c.security with
  | none => ""
  | some s =>
    if s.vulnerabilities.isEmpty then ""
    else
      "\n\n<security_context>\n**SECURITY VULNERABILITIES TO ADDRESS:**\n" ++
        String.join (s.vulnerabilities.map vulnLine) ++
        "\nPrioritize security fixes in your response, especially Critical and High severity issues.\n</security_context>"

/-- Truthiness of an optional list: present and non-empty
(`xs && xs.length > 0`). -/
def optListNonempty {α : Type} (o : Option (List α)) : Bool :=
  match o with
  | some l => !l.isEmpty
  | none => false

/-- The collaboration block (part_003 lines 162-194): emitted when at
least one of the three sub-lists is present and non-empty; notifications
are previewed to 5 entries, pull requests and issues to 3, in source
order. -/
def githubPart (c : MCPContext) : String :=
  match c.github with
  | none => ""
  | some g =>
    if optListNonempty g.notifications || optListNonempty g.pullRequests ||
        optListNonempty g.issues then
      "\n\n<collaboration_context>\n**CURRENT GITHUB ACTIVITY:**\n" ++
        (match g.notifications with
         | some ns =>
           if ns.isEmpty then ""
           else "**Recent Notifications:**\n" ++
             String.join ((ns.take 5).map fun n =>
               "- " ++ n.type ++ ": " ++ n.subject ++ " (" ++ n.repository ++ ")\n")
         | none => "") ++
        (match g.pullRequests with
         | some prs =>
           if prs.isEmpty then ""
           else "**Active Pull Requests:**\n" ++
             String.join ((prs.take 3).map fun pr =>
               "- " ++ pr.title ++ " (" ++ pr.status ++ ")\n")
         | none => "") ++
        (match g.issues with
         | some is =>
           if is.isEmpty then ""
           else "**Open Issues:**\n" ++
             String.join ((is.take 3).map fun i =>
               "- " ++ i.title ++ " (" ++ String.intercalate ", " i.labels ++ ")\n")
         | none => "") ++
        "\nConsider these active items when providing recommendations.\n</collaboration_context>"
    else ""

/-- The reasoning block (part_003 lines 196-210): emitted only when the
thinking-process string is truthy; the hypothesis, verification and
confidence lines each appear only when their field is truthy, confidence
being rendered as `confidence_level * 100` followed by a percent sign. -/
def reasoningPart (c : MCPContext) : String :=
  match c.reasoning with
  | none => ""
  | some r =>
    if r.thinking_process.isEmpty then ""
    else
      "\n\n<reasoning_context>\n**SYSTEMATIC THINKING PROCESS:**\n" ++
        "Process: " ++ r.thinking_process ++ "\n" ++
        (if r.hypothesis.isEmpty then "" else "Hypothesis: " ++ r.hypothesis ++ "\n") ++
        (if r.verification.isEmpty then "" else "Verification: " ++ r.verification ++ "\n") ++
        (if r.confidence_level = 0 then ""
         else "Confidence: " ++ numStr (r.confidence_level * 100) ++ "%\n") ++
        "\nUse this systematic approach in your analysis and recommendations.\n</reasoning_context>"

/-- The full context enhancement accumulated by `addMCPContext`
(part_003 lines 134-212): quality, then security, then collaboration,
then reasoning. -/
def renderMCP (c : MCPContext) : String :=
  qualityPart c ++ securityPart c ++ githubPart c ++ reasoningPart c

/-- Source: `addMCPContext` (part_003 lines 134-213): the context
enhancement is appended to the template unconditionally, with no marker
check. -/
def addMCPContext (template : String) (c : MCPContext) : String :=
  template ++ renderMCP c

/-- Naive substring search on character lists, modelling JavaScript
`String.prototype.includes`: does `sub` occur contiguously in the list? -/
def listInfix (sub : List Char) : List Char → Bool
  | [] => sub.isEmpty
  | c :: t => sub.isPrefixOf (c :: t) || listInfix sub t

/-- JavaScript `s.includes(sub)`. -/
def jsIncludes (s sub : String) : Bool := listInfix sub.data s.data

/-- Does `sub` occur in `s` starting at position `i`? -/
def occursAtB (s sub : String) (i : Nat) : Bool :=
  sub.data.isPrefixOf (s.data.drop i)

/-- Does `sub` occur in `s` at some position at or beyond `k`? -/
def occursFromB (s sub : String) (k : Nat) : Bool :=
  (List.range (s.data.length + 1)).any fun i => k ≤ i && occursAtB s sub i

/-- The structural-wrapping marker `"<task_context>"` (part_003 line 64). -/
def taskMarker : String := "<task_context>"

/-- The text placed before the template by structural wrapping. -/
def taskOpen : String := "<task_context>\n"

/-- The text placed after the template by structural wrapping. -/
def taskClose : String := "\n</task_context>"

/-- The guidance phrase `"If you're unsure"` tested by the error-handling
guard (part_003 line 74). -/
def unsurePhrase : String := "If you" ++ apos ++ "re unsure"

/-- The error-handling footer appended by `createAdvancedPrompt`
(part_003 line 75).  Note that it does not contain `unsurePhrase`. -/
def errFooter : String :=
  "\n\n<error_handling>\nIf you encounter any ambiguity or need clarification, please:\n1. Ask specific questions about unclear requirements\n2. State your assumptions explicitly\n3. Provide alternative approaches when applicable\n4. Request additional context if needed for optimal results\n</error_handling>"

/-- The option record of `createAdvancedPrompt` after the default merge
`{ validateInputs: true, enhanceStructure: true, addErrorHandling: true,
...options }` (part_003 lines 45-50).  `validateInputs` only controls the
`console.warn` advisory (see `missingParams`) and has no effect on the
returned string. -/
structure AdvancedOptions where
  validateInputs : Bool
  enhanceStructure : Bool
  addErrorHandling : Bool
  mcpContext : Option MCPContext

/-- Source: `createAdvancedPrompt` (part_003 lines 35-79): optionally wrap
the template in the task-context markers (guarded by a scan of the
original template for `taskMarker`), then append the context enhancement
when a payload is supplied, then append the error-handling footer (guarded
by a scan of the original template for `unsurePhrase`), and finally run
placeholder substitution on the result. -/
def createAdvancedPrompt (template : String) (params : ParamMap)
    (opts : AdvancedOptions) : Except EngineError String :=
  let e1 :=
    if opts.enhanceStructure && !jsIncludes template taskMarker then
      taskOpen ++ template ++ taskClose
    else template
  let e2 :=
    match opts.mcpContext with
    | some c => addMCPContext e1 c
    | none => e1
  let e3 :=
    if opts.addErrorHandling && !jsIncludes template unsurePhrase then
      e2 ++ errFooter
    else e2
  createPrompt e3 params

/-- The structural wrapping step of `createAdvancedPrompt` in isolation
(part_003 lines 64-66). -/
def wrapStep (template : String) : String :=
  if !jsIncludes template taskMarker then taskOpen ++ template ++ taskClose
  else template

/-- The wrap-and-footer step of `createAdvancedPrompt`
(`enhanceStructure` and `addErrorHandling`, part_003 lines 61-76) with
substitution factored out: wrap unless the template already contains
`taskMarker`, then append `errFooter` unless the template already contains
`unsurePhrase`. -/
def structEnhanceStep (template : String) : String :=
  let e1 :=
    if !jsIncludes template taskMarker then taskOpen ++ template ++ taskClose
    else template
  if !jsIncludes template unsurePhrase then e1 ++ errFooter else e1

/-- The six built-in prompt kinds, in registry order
(`SupportPromptType`, part_003 line 236). -/
def builtinKinds : List String :=
  ["ENHANCE", "ANALYZE", "DEBUG", "OPTIMIZE", "DOCUMENT", "TEST"]

/-- The built-in template registry `supportPromptConfigs`
(part_003 lines 238-2222): an association of exactly the six built-in
kinds, in order, to their template strings.  The template strings
themselves are large authored prompt data (some 2000 source lines); every
verified statement is independent of their contents, so the registry is
modelled by any table with the source registry key structure. -/
structure BuiltinRegistry where
  templates : List (String × String)
  keys_eq : templates.map Prod.fst = builtinKinds

/-- Source: `supportPrompt.get` (part_003 lines 2226-2228):
`customSupportPrompts?.[type] ?? supportPromptConfigs[type].template`.
A kind found in the caller-supplied override map wins outright; otherwise
the built-in template is used; for a kind absent from both, reading
`.template` of `undefined` throws (the `UnknownPromptKind` condition). -/
def supportPromptGet (reg : BuiltinRegistry)
    (customSupportPrompts : Option (List (String × String)))
    (type : String) : Except EngineError String :=
  match customSupportPrompts.bind fun m => assocLookup m type with
  | some t => .ok t
  | none =>
    match assocLookup reg.templates type with
    | some t => .ok t
    | none => .error .unknownPromptKind

/-- Source: `supportPrompt.create` (part_003 lines 2229-2232): resolve the
template for the kind, then substitute the parameters into it. -/
def supportPromptCreate (reg : BuiltinRegistry) (type : String)
    (params : ParamMap)
    (customSupportPrompts : Option (List (String × String))) :
    Except EngineError String :=
  match supportPromptGet reg customSupportPrompts type with
  | .error e => .error e
  | .ok template => createPrompt template params

/-- Source: `supportPrompt.getAvailableTypes` (part_003 lines 2234-2236). -/
def getAvailableTypes (reg : BuiltinRegistry) : List String :=
  reg.templates.map Prod.fst

/-- Source: `createMCPEnhancedPrompt` (part_003 lines 216-230): build the
base prompt with `supportPrompt.create` (which already substitutes the
parameters once), then run `createAdvancedPrompt` on it with validation,
structural enhancement and error handling all enabled and the optional
context payload (which substitutes a second time). -/
def createMCPEnhancedPrompt (reg : BuiltinRegistry) (type : String)
    (params : ParamMap) (mcpContext : Option MCPContext)
    (customSupportPrompts : Option (List (String × String))) :
    Except EngineError String :=
  match supportPromptCreate reg type params customSupportPrompts with
  | .error e => .error e
  | .ok basePrompt =>
    createAdvancedPrompt basePrompt params
      ⟨true, true, true, mcpContext⟩

/-- The string produced by a successful engine call, or the empty string
for an error (used to state concrete evaluations). -/
def outStr : Except EngineError String → String
  | .ok s => s
  | .error _ => ""

/-- Truthiness of well-formedness of the reserved `diagnostics` entry: the
substitutor can only throw when a non-empty plain string is stored under
`"diagnostics"` (see `gdtOfValue`), which the data model of the spec
excludes. -/
def diagsOkB (p : ParamMap) : Bool :=
  match assocLookup p "diagnostics" with
  | some (.str s) => s.isEmpty
  | _ => true

/-- Truthiness of a placeholder body being matchable by the token pattern:
no closing brace and no line terminator among its characters. -/
def cleanKeyB (k : String) : Bool :=
  k.data.all fun c => !(c == '}') && !lineTermB c

/-- Truthiness of a string containing no dollar sign (such a string can
never start or contain a placeholder token). -/
def noDollarB (s : String) : Bool := s.data.all fun c => !(c == '$')


/-- Truthiness of a character list being a matchable token body. -/
def cleanListB (l : List Char) : Bool := l.all fun c => !(c == '}') && !lineTermB c

/-- Truthiness of a character list containing no closing brace. -/
def noCloseListB (l : List Char) : Bool := l.all fun c => !(c == '}')

/-- Truthiness of a string containing no closing brace (such a string
following `"${"` can never complete a token). -/
def noCloseB (s : String) : Bool := noCloseListB s.data

/-- A registry with the source key structure, used to instantiate
statements that hold for every `BuiltinRegistry`; the real
`supportPromptConfigs` binds the same six keys to the large authored
template texts, which none of the verified statements inspect. -/
def regSample : BuiltinRegistry :=
  ⟨[("ENHANCE", "A"), ("ANALYZE", "B"), ("DEBUG", "C"), ("OPTIMIZE", "D"),
    ("DOCUMENT", "E"), ("TEST", "F")], rfl⟩

/-- A context payload carrying only a reasoning section, with a non-empty
thinking process and a supplied confidence value of 0. -/
def ctxReasoningSample : MCPContext := ⟨none, none, none, some ⟨"s", "", "", 0⟩⟩

/-- A context payload whose reasoning section has all four fields truthy. -/
def ctxReasoningFull : MCPContext :=
  ⟨none, none, none, some ⟨"steps", "hyp", "ver", 4/5⟩⟩

/-- A context payload carrying one quality issue and no metrics object. -/
def ctxQualityNoMetrics : MCPContext :=
  ⟨some ⟨[⟨"Style", "High", "msg", none, none⟩], none⟩, none, none, none⟩

/-- Parameters used to exercise the two substitution passes of the full
pipeline: `a` expands to the literal token `${b}`, `b` expands to `X`,
and `tp` expands to `CTXVAL`. -/
def paramsC9 : ParamMap :=
  [("a", PValue.str (tok "b")), ("b", PValue.str "X"), ("tp", PValue.str "CTXVAL")]

/-- A context payload whose thinking-process text is itself the token
`${tp}`. -/
def ctxC9 : MCPContext := ⟨none, none, none, some ⟨tok "tp", "", "", 0⟩⟩

/-- The full pipeline on a small custom template with a reasoning payload. -/
def pipelineSampleC2 : Except EngineError String :=
  createMCPEnhancedPrompt regSample "ENHANCE" [] (some ctxReasoningSample)
    (some [("ENHANCE", "T")])

/-- The full pipeline on a custom template `${a}` whose parameter values
and context text contain further tokens. -/
def pipelineSampleC9 : Except EngineError String :=
  createMCPEnhancedPrompt regSample "ENHANCE" paramsC9 (some ctxC9)
    (some [("ENHANCE", tok "a")])

theorem findBody_eq_some : ∀ {l b r : List Char}, findBody l = some (b, r) → l = b ++ '}' :: r := by
  intro l
  induction l with
  | nil => intro b r h; simp [findBody] at h
  | cons c t ih =>
    intro b r h
    unfold findBody at h
    by_cases hc : (c == '}') = true
    · simp only [hc, if_true] at h
      have hc' : c = '}' := by simpa using hc
      obtain ⟨rfl, rfl⟩ : [] = b ∧ t = r := by simpa using h
      simp [hc']
    · simp only [hc, if_false, Bool.false_eq_true] at h
      by_cases hl : lineTermB c = true
      · simp [hl] at h
      · simp only [hl, if_false, Bool.false_eq_true] at h
        cases hfb : findBody t with
        | none => rw [hfb] at h; cases h
        | some br =>
          obtain ⟨b', r'⟩ := br
          rw [hfb] at h
          obtain ⟨rfl, rfl⟩ : c :: b' = b ∧ r' = r := by simpa using h
          simp [ih hfb]

theorem findBody_of_clean : ∀ (k rest : List Char), cleanListB k = true →
    findBody (k ++ '}' :: rest) = some (k, rest) := by
  intro k
  induction k with
  | nil => intro rest _; simp [findBody]
  | cons c t ih =>
    intro rest hk
    simp only [cleanListB, List.all_cons, Bool.and_eq_true, Bool.not_eq_true'] at hk
    obtain ⟨⟨hc, hl⟩, ht⟩ := hk
    simp only [List.cons_append, findBody, hc, hl, if_false, Bool.false_eq_true]
    rw [show t.append ('}' :: rest) = t ++ '}' :: rest from rfl, ih rest ht]

theorem findBody_of_noClose : ∀ (l : List Char), noCloseListB l = true →
    findBody l = none := by
  intro l
  induction l with
  | nil => intro _; simp [findBody]
  | cons c t ih =>
    intro hl
    simp only [noCloseListB, List.all_cons, Bool.and_eq_true, Bool.not_eq_true'] at hl
    obtain ⟨hc, ht⟩ := hl
    by_cases hlt : lineTermB c = true
    · simp [findBody, hc, hlt]
    · simp [findBody, hc, hlt, ih ht]

theorem findBody_of_lineTerm : ∀ (k : List Char) (d : Char) (rest : List Char),
    cleanListB k = true → lineTermB d = true → findBody (k ++ d :: rest) = none := by
  intro k
  induction k with
  | nil =>
    intro d rest _ hd
    have hdc : (d == '}') = false := by
      revert hd
      simp only [lineTermB, Bool.or_eq_true, beq_iff_eq]
      rintro (((rfl | rfl) | rfl) | rfl) <;> decide
    simp [findBody, hdc, hd]
  | cons c t ih =>
    intro d rest hk hd
    simp only [cleanListB, List.all_cons, Bool.and_eq_true, Bool.not_eq_true'] at hk
    obtain ⟨⟨hc, hl⟩, ht⟩ := hk
    simp [findBody, hc, hl, ih d rest ht hd]

theorem isPrefixOf_append_self : ∀ (a r : List Char), a.isPrefixOf (a ++ r) = true := by
  intro a
  induction a with
  | nil => intro r; simp [List.isPrefixOf]
  | cons c t ih => intro r; simp [List.isPrefixOf, ih]

theorem isPrefixOf_append_mono : ∀ (a b r : List Char), a.isPrefixOf b = true →
    a.isPrefixOf (b ++ r) = true := by
  intro a
  induction a with
  | nil => intro b r _; simp [List.isPrefixOf]
  | cons c t ih =>
    intro b r h
    cases b with
    | nil => simp [List.isPrefixOf] at h
    | cons x b' =>
      simp only [List.isPrefixOf, Bool.and_eq_true] at h ⊢
      exact ⟨h.1, ih b' r h.2⟩

theorem listInfix_of_isPrefixOf : ∀ (sub l : List Char), sub.isPrefixOf l = true →
    listInfix sub l = true := by
  intro sub l h
  cases l with
  | nil =>
    cases sub with
    | nil => simp [listInfix]
    | cons c t => simp [List.isPrefixOf] at h
  | cons c t => simp [listInfix, h]

theorem listInfix_append_right : ∀ (l sub r : List Char), listInfix sub l = true →
    listInfix sub (l ++ r) = true := by
  intro l
  induction l with
  | nil =>
    intro sub r h
    simp only [listInfix] at h
    have : sub = [] := by simpa using h
    subst this
    exact listInfix_of_isPrefixOf [] r (by simp [List.isPrefixOf])
  | cons c t ih =>
    intro sub r h
    simp only [listInfix, Bool.or_eq_true] at h
    rcases h with h | h
    · exact listInfix_of_isPrefixOf _ _ (by
        have := isPrefixOf_append_mono sub (c :: t) r h
        simpa using this)
    · have := ih sub r h
      simp [listInfix, Bool.or_eq_true]
      right
      simpa using this

theorem listInfix_append_left : ∀ (l sub r : List Char), listInfix sub r = true →
    listInfix sub (l ++ r) = true := by
  intro l
  induction l with
  | nil => intro sub r h; simpa using h
  | cons c t ih =>
    intro sub r h
    simp only [List.cons_append, listInfix, Bool.or_eq_true]
    right
    exact ih sub r h

theorem jsIncludes_append_left (a b sub : String) (h : jsIncludes a sub = true) :
    jsIncludes (a ++ b) sub = true := by
  have : (a ++ b).data = a.data ++ b.data := rfl
  unfold jsIncludes at h ⊢
  rw [this]
  exact listInfix_append_right _ _ _ h

theorem jsIncludes_append_right (a b sub : String) (h : jsIncludes b sub = true) :
    jsIncludes (a ++ b) sub = true := by
  have : (a ++ b).data = a.data ++ b.data := rfl
  unfold jsIncludes at h ⊢
  rw [this]
  exact listInfix_append_left _ _ _ h

theorem substRun_nil (p : ParamMap) (n : Nat) : substRun p n [] = .ok "" := by
  cases n <;> rfl

theorem substRun_dollar_brace (p : ParamMap) (n : Nat) (rest2 : List Char) :
    substRun p (n + 1) ('$' :: '{' :: rest2) =
      match findBody rest2 with
      | some (body, rest') =>
        match resolveKey p (String.mk body) with
        | .error e => .error e
        | .ok v =>
          match substRun p n rest' with
          | .error e => .error e
          | .ok s => .ok (v ++ s)
      | none =>
        match substRun p n rest2 with
        | .error e => .error e
        | .ok s => .ok (tokOpen ++ s) := rfl

theorem substRun_dollar_end (p : ParamMap) (n : Nat) :
    substRun p (n + 1) ['$'] = .ok (Char.toString '$') := rfl

theorem substRun_dollar_ne (p : ParamMap) (n : Nat) (c2 : Char) (rest2 : List Char)
    (h : ¬c2 = '{') :
    substRun p (n + 1) ('$' :: c2 :: rest2) =
      match substRun p n (c2 :: rest2) with
      | .error e => .error e
      | .ok s => .ok (Char.toString '$' ++ s) := by
  show (if ('$' : Char) = '$' then _ else _) = _
  rw [if_pos rfl]
  show (if c2 = '{' then _ else _) = _
  rw [if_neg h]

theorem substRun_ne_dollar (p : ParamMap) (n : Nat) (c : Char) (rest : List Char)
    (h : ¬c = '$') :
    substRun p (n + 1) (c :: rest) =
      match substRun p n rest with
      | .error e => .error e
      | .ok s => .ok (c.toString ++ s) := by
  show (if c = '$' then _ else _) = _
  rw [if_neg h]

theorem charToString_mk (c : Char) (l : List Char) :
    c.toString ++ String.mk l = String.mk (c :: l) := rfl

theorem tokOpen_mk (l : List Char) :
    tokOpen ++ String.mk l = String.mk ('$' :: '{' :: l) := rfl

theorem substRun_fuel (p : ParamMap) : ∀ (n m : Nat) (l : List Char),
    l.length ≤ n → l.length ≤ m → substRun p n l = substRun p m l := by
  intro n
  induction n with
  | zero =>
    intro m l h1 h2
    have hl : l = [] := List.eq_nil_of_length_eq_zero (Nat.le_zero.mp h1)
    subst hl
    rw [substRun_nil, substRun_nil]
  | succ n ih =>
    intro m l h1 h2
    cases l with
    | nil => rw [substRun_nil, substRun_nil]
    | cons c rest =>
      obtain ⟨m', rfl⟩ : ∃ m', m = m' + 1 := by
        cases m with
        | zero => simp at h2
        | succ m' => exact ⟨m', rfl⟩
      by_cases hc : c = '$'
      · subst hc
        cases rest with
        | nil => rw [substRun_dollar_end, substRun_dollar_end]
        | cons c2 rest2 =>
          by_cases hc2 : c2 = '{'
          · subst hc2
            rw [substRun_dollar_brace, substRun_dollar_brace]
            cases hfb : findBody rest2 with
            | some br =>
              obtain ⟨b, r'⟩ := br
              have hsp := findBody_eq_some hfb
              have hlen : rest2.length = b.length + 1 + r'.length := by
                rw [hsp]; simp [List.length_append]; omega
              simp only [List.length_cons] at h1 h2
              dsimp only
              rw [ih m' r' (by omega) (by omega)]
            | none =>
              simp only [List.length_cons] at h1 h2
              dsimp only
              rw [ih m' rest2 (by omega) (by omega)]
          · rw [substRun_dollar_ne p _ _ _ hc2, substRun_dollar_ne p _ _ _ hc2]
            simp only [List.length_cons] at h1 h2
            rw [ih m' (c2 :: rest2) (by simp; omega) (by simp; omega)]
      · rw [substRun_ne_dollar p _ _ _ hc, substRun_ne_dollar p _ _ _ hc]
        simp only [List.length_cons] at h1 h2
        rw [ih m' rest (by omega) (by omega)]

theorem substRun_append_nodollar (p : ParamMap) :
    ∀ (pre l : List Char) (n : Nat), (∀ c ∈ pre, ¬c = '$') →
    (pre ++ l).length ≤ n →
    substRun p n (pre ++ l) =
      match substRun p l.length l with
      | .error e => .error e
      | .ok s => .ok (String.mk pre ++ s) := by
  intro pre
  induction pre with
  | nil =>
    intro l n _ hn
    rw [List.nil_append] at hn ⊢
    rw [substRun_fuel p n l.length l hn (Nat.le_refl _)]
    cases h : substRun p l.length l with
    | error e => rfl
    | ok s => show _ = Except.ok (String.mk [] ++ s); rw [show String.mk [] ++ s = s from String.empty_append s]
    
  | cons c pre' ih =>
    intro l n hpre hn
    have hc : ¬c = '$' := hpre c (by simp)
    have hpre' : ∀ c ∈ pre', ¬c = '$' := fun x hx => hpre x (by simp [hx])
    obtain ⟨n', rfl⟩ : ∃ n', n = n' + 1 := by
      cases n with
      | zero => simp at hn
      | succ n' => exact ⟨n', rfl⟩
    rw [List.cons_append, substRun_ne_dollar p n' c (pre' ++ l) hc]
    have hn' : (pre' ++ l).length ≤ n' := by
      simp only [List.cons_append, List.length_cons] at hn
      omega
    rw [ih l n' hpre' hn']
    cases h : substRun p l.length l with
    | error e => rfl
    | ok s =>
      show Except.ok (c.toString ++ (String.mk pre' ++ s)) = Except.ok (String.mk (c :: pre') ++ s)
      rw [← String.append_assoc]
      rfl

theorem substRun_token (p : ParamMap) (k suf : List Char) (n : Nat)
    (hk : cleanListB k = true)
    (hn : ('$' :: '{' :: (k ++ '}' :: suf)).length ≤ n) :
    substRun p n ('$' :: '{' :: (k ++ '}' :: suf)) =
      match resolveKey p (String.mk k) with
      | .error e => .error e
      | .ok v =>
        match substRun p suf.length suf with
        | .error e => .error e
        | .ok s => .ok (v ++ s) := by
  obtain ⟨n', rfl⟩ : ∃ n', n = n' + 1 := by
    cases n with
    | zero => simp at hn
    | succ n' => exact ⟨n', rfl⟩
  rw [substRun_dollar_brace, findBody_of_clean k suf hk]
  dsimp only
  cases hr : resolveKey p (String.mk k) with
  | error e => dsimp only
  | ok v =>
    dsimp only
    have hlen : suf.length ≤ n' := by
      simp only [List.length_cons, List.length_append] at hn
      omega
    rw [substRun_fuel p n' suf.length suf hlen (Nat.le_refl _)]

theorem substRun_noClose (p : ParamMap) : ∀ (n : Nat) (l : List Char),
    noCloseListB l = true → l.length ≤ n → substRun p n l = .ok (String.mk l) := by
  intro n
  induction n with
  | zero =>
    intro l _ h1
    have hl : l = [] := List.eq_nil_of_length_eq_zero (Nat.le_zero.mp h1)
    subst hl
    rw [substRun_nil]
  | succ n ih =>
    intro l hcl hn
    cases l with
    | nil => rw [substRun_nil]
    | cons c rest =>
      simp only [noCloseListB, List.all_cons, Bool.and_eq_true, Bool.not_eq_true'] at hcl
      obtain ⟨hcb, hrest⟩ := hcl
      simp only [List.length_cons] at hn
      by_cases hc : c = '$'
      · subst hc
        cases rest with
        | nil => rw [substRun_dollar_end]; rfl
        | cons c2 rest2 =>
          simp only [List.all_cons, Bool.and_eq_true, Bool.not_eq_true'] at hrest
          obtain ⟨hc2b, hrest2⟩ := hrest
          by_cases hc2 : c2 = '{'
          · subst hc2
            rw [substRun_dollar_brace, findBody_of_noClose rest2 hrest2]
            simp only [List.length_cons] at hn
            rw [ih rest2 hrest2 (by omega)]
            dsimp only
            rw [tokOpen_mk]
          · rw [substRun_dollar_ne p _ _ _ hc2]
            rw [ih (c2 :: rest2) (by simp [noCloseListB, hc2b, hrest2]) (by simp only [List.length_cons] at hn ⊢; omega)]
            dsimp only
            rw [charToString_mk]
      · rw [substRun_ne_dollar p _ _ _ hc]
        rw [ih rest (by simp [noCloseListB, hrest]) (by omega)]
        dsimp only
        rw [charToString_mk]

theorem extractRun_nil (n : Nat) : extractRun n [] = [] := by
  cases n <;> rfl

theorem extractRun_dollar_brace (n : Nat) (rest2 : List Char) :
    extractRun (n + 1) ('$' :: '{' :: rest2) =
      match findBody rest2 with
      | some (body, rest') => String.mk body :: extractRun n rest'
      | none => extractRun n rest2 := rfl

theorem extractRun_dollar_ne (n : Nat) (c2 : Char) (rest2 : List Char) (h : ¬c2 = '{') :
    extractRun (n + 1) ('$' :: c2 :: rest2) = extractRun n (c2 :: rest2) := by
  show (if ('$' : Char) = '$' then _ else _) = _
  rw [if_pos rfl]
  show (if c2 = '{' then _ else _) = _
  rw [if_neg h]

theorem extractRun_ne_dollar (n : Nat) (c : Char) (rest : List Char) (h : ¬c = '$') :
    extractRun (n + 1) (c :: rest) = extractRun n rest := by
  show (if c = '$' then _ else _) = _
  rw [if_neg h]

theorem substRun_of_extract_nil (p : ParamMap) : ∀ (n : Nat) (l : List Char),
    extractRun n l = [] → l.length ≤ n → substRun p n l = .ok (String.mk l) := by
  intro n
  induction n with
  | zero =>
    intro l _ h1
    have hl : l = [] := List.eq_nil_of_length_eq_zero (Nat.le_zero.mp h1)
    subst hl
    rw [substRun_nil]
  | succ n ih =>
    intro l hex hn
    cases l with
    | nil => rw [substRun_nil]
    | cons c rest =>
      simp only [List.length_cons] at hn
      by_cases hc : c = '$'
      · subst hc
        cases rest with
        | nil => rw [substRun_dollar_end]; rfl
        | cons c2 rest2 =>
          by_cases hc2 : c2 = '{'
          · subst hc2
            rw [extractRun_dollar_brace] at hex
            rw [substRun_dollar_brace]
            cases hfb : findBody rest2 with
            | some br =>
              obtain ⟨b, r'⟩ := br
              rw [hfb] at hex
              simp at hex
            | none =>
              rw [hfb] at hex
              dsimp only at hex ⊢
              simp only [List.length_cons] at hn
              rw [ih rest2 hex (by omega)]
              dsimp only
              rw [tokOpen_mk]
          · rw [extractRun_dollar_ne n c2 rest2 hc2] at hex
            rw [substRun_dollar_ne p n c2 rest2 hc2]
            rw [ih (c2 :: rest2) hex (by simp only [List.length_cons] at hn ⊢; omega)]
            dsimp only
            rw [charToString_mk]
      · rw [extractRun_ne_dollar n c rest hc] at hex
        rw [substRun_ne_dollar p n c rest hc]
        rw [ih rest hex (by omega)]
        dsimp only
        rw [charToString_mk]

theorem resolveKey_isOk (p : ParamMap) (k : String) (hd : diagsOkB p = true) :
    ∃ v, resolveKey p k = .ok v := by
  unfold resolveKey
  by_cases hk : k = "diagnosticText"
  · rw [if_pos hk]
    unfold diagsOkB at hd
    cases hl : assocLookup p "diagnostics" with
    | none => exact ⟨"", rfl⟩
    | some v =>
      cases v with
      | str s =>
        rw [hl] at hd
        dsimp only at hd
        refine ⟨"", ?_⟩
        simp only [gdtOfValue, hd, if_true]
      | list ls => exact ⟨_, rfl⟩
      | diags ds => exact ⟨_, rfl⟩
  · rw [if_neg hk]
    cases assocLookup p k with
    | none => exact ⟨"", rfl⟩
    | some v => exact ⟨_, rfl⟩

theorem substRun_isOk (p : ParamMap) (hd : diagsOkB p = true) :
    ∀ (n : Nat) (l : List Char), ∃ s, substRun p n l = .ok s := by
  intro n
  induction n with
  | zero =>
    intro l
    cases l with
    | nil => exact ⟨"", substRun_nil p 0⟩
    | cons c rest => exact ⟨_, rfl⟩
  | succ n ih =>
    intro l
    cases l with
    | nil => exact ⟨"", substRun_nil p _⟩
    | cons c rest =>
      by_cases hc : c = '$'
      · subst hc
        cases rest with
        | nil => exact ⟨_, substRun_dollar_end p n⟩
        | cons c2 rest2 =>
          by_cases hc2 : c2 = '{'
          · subst hc2
            rw [substRun_dollar_brace]
            cases hfb : findBody rest2 with
            | some br =>
              obtain ⟨b, r'⟩ := br
              dsimp only
              obtain ⟨v, hv⟩ := resolveKey_isOk p (String.mk b) hd
              rw [hv]
              obtain ⟨s, hs⟩ := ih r'
              rw [hs]
              exact ⟨v ++ s, rfl⟩
            | none =>
              dsimp only
              obtain ⟨s, hs⟩ := ih rest2
              rw [hs]
              exact ⟨tokOpen ++ s, rfl⟩
          · rw [substRun_dollar_ne p n c2 rest2 hc2]
            obtain ⟨s, hs⟩ := ih (c2 :: rest2)
            rw [hs]
            exact ⟨_, rfl⟩
      · rw [substRun_ne_dollar p n c rest hc]
        obtain ⟨s, hs⟩ := ih rest
        rw [hs]
        exact ⟨_, rfl⟩

theorem strData_append (a b : String) : (a ++ b).data = a.data ++ b.data := rfl

theorem tokOpen_data : tokOpen.data = ['$', '{'] := rfl

theorem closeBrace_data : closeBrace.data = ['}'] := rfl

theorem strMk_data (s : String) : String.mk s.data = s := rfl

theorem noDollar_mem (s : String) (h : noDollarB s = true) : ∀ c ∈ s.data, ¬c = '$' := by
  intro c hc
  unfold noDollarB at h
  have := List.all_eq_true.mp h c hc
  simpa using this

theorem cleanKeyB_eq (k : String) : cleanKeyB k = cleanListB k.data := rfl

/-- Substitution of a template of the shape `pre ++ "${k}" ++ suf`, where
`pre` contains no dollar sign and `k` is a matchable body: the token is
matched, its resolution is emitted verbatim (not re-scanned), and the scan
continues after the token. -/
theorem createPrompt_split (p : ParamMap) (pre k suf : String)
    (hk : cleanKeyB k = true) (hpre : noDollarB pre = true) :
    createPrompt (pre ++ tok k ++ suf) p =
      match resolveKey p k with
      | .error e => .error e
      | .ok v =>
        match createPrompt suf p with
        | .error e => .error e
        | .ok s => .ok (pre ++ (v ++ s)) := by
  have hdata : (pre ++ tok k ++ suf).data =
      pre.data ++ ('$' :: '{' :: (k.data ++ '}' :: suf.data)) := by
    simp only [tok, strData_append, tokOpen_data, closeBrace_data,
      List.append_assoc, List.cons_append, List.singleton_append, List.nil_append]
  show substRun p (pre ++ tok k ++ suf).data.length (pre ++ tok k ++ suf).data = _
  rw [hdata]
  rw [substRun_append_nodollar p pre.data ('$' :: '{' :: (k.data ++ '}' :: suf.data))
    (pre.data ++ ('$' :: '{' :: (k.data ++ '}' :: suf.data))).length
    (noDollar_mem pre hpre) (Nat.le_refl _)]
  rw [substRun_token p k.data suf.data ('$' :: '{' :: (k.data ++ '}' :: suf.data)).length
    ((cleanKeyB_eq k) ▸ hk) (Nat.le_refl _)]
  rw [strMk_data k]
  have hcp : createPrompt suf p = substRun p suf.data.length suf.data := rfl
  rw [hcp]
  cases hr : resolveKey p k with
  | error e => rfl
  | ok v =>
    dsimp only
    cases hs : substRun p suf.data.length suf.data with
    | error e => rfl
    | ok s => rfl

theorem resolveKey_absent (p : ParamMap) (k : String) (hne : k ≠ "diagnosticText")
    (hl : assocLookup p k = none) : resolveKey p k = .ok "" := by
  unfold resolveKey
  rw [if_neg hne, hl]

/-- Substitution of a template consisting of a single token `${s}`: the
result is exactly the resolution of `s`. -/
theorem createPrompt_tok (p : ParamMap) (s : String) (hs : cleanKeyB s = true) :
    createPrompt (tok s) p = resolveKey p s := by
  have h := createPrompt_split p "" s "" hs (by decide)
  have heq : ("" : String) ++ tok s ++ "" = tok s := by
    rw [String.empty_append, String.append_empty]
  rw [heq] at h
  rw [h]
  cases hr : resolveKey p s with
  | error e => rfl
  | ok v =>
    dsimp only
    rw [show createPrompt "" p = .ok "" from rfl]
    dsimp only
    rw [String.empty_append, String.append_empty]

/-- C4: for every parameter map lacking a key `k` (with `k` not the
`diagnosticText` pseudo-key and `k` a matchable token body), the
placeholder `${k}` is replaced by the empty string — never an error and
never the literal token: in context `pre ++ "${k}" ++ suf` the output is
`pre` followed by the substitution of `suf`, and the template consisting
only of `${k}` substitutes to the empty string. -/
theorem c4_missing_key_empty :
    ∀ (p : ParamMap) (k pre suf : String),
      cleanKeyB k = true → k ≠ "diagnosticText" → assocLookup p k = none →
      noDollarB pre = true →
      (createPrompt (pre ++ tok k ++ suf) p =
        match createPrompt suf p with
        | .error e => .error e
        | .ok s => .ok (pre ++ s)) ∧
      createPrompt (tok k) p = .ok "" := by
  intro p k pre suf hk hne hl hpre
  constructor
  · rw [createPrompt_split p pre k suf hk hpre, resolveKey_absent p k hne hl]
    dsimp only
    cases h : createPrompt suf p with
    | error e => rfl
    | ok s =>
      dsimp only
      rw [String.empty_append]
  · have h := createPrompt_split p "" k "" hk (by decide)
    have heq : ("" : String) ++ tok k ++ "" = tok k := by
      rw [String.empty_append, String.append_empty]
    rw [heq] at h
    rw [h, resolveKey_absent p k hne hl]
    rfl

/-- Closed instance of `c4_missing_key_empty` at a concrete map and key. -/
theorem c4_missing_key_empty_witness :
    (cleanKeyB "missing key" = true ∧ "missing key" ≠ "diagnosticText" ∧
      assocLookup [("x", PValue.str "v")] "missing key" = none ∧
      noDollarB "A: " = true) ∧
    (createPrompt ("A: " ++ tok "missing key" ++ "B") [("x", PValue.str "v")] =
      match createPrompt "B" [("x", PValue.str "v")] with
      | .error e => .error e
      | .ok s => .ok ("A: " ++ s)) ∧
    createPrompt (tok "missing key") [("x", PValue.str "v")] = .ok "" := by
  have h := c4_missing_key_empty [("x", PValue.str "v")] "missing key" "A: " "B"
    (by decide) (by decide) (by decide) (by decide)
  exact ⟨⟨by decide, by decide, by decide, by decide⟩, h.1, h.2⟩

/-- C10: the token pattern is not restricted to identifier characters.
For every body `s` with no closing brace and no line terminator, `${s}`
is matched and replaced per the resolution rules; a `${` followed by text
with no closing brace is left literal; and a `${` whose candidate body is
interrupted by a newline before any closing brace is left literal while
scanning continues after the newline. -/
theorem c10_token_pattern :
    (∀ (p : ParamMap) (s : String), cleanKeyB s = true →
      createPrompt (tok s) p = resolveKey p s) ∧
    (∀ (p : ParamMap) (s : String), noCloseB s = true →
      createPrompt (tokOpen ++ s) p = .ok (tokOpen ++ s)) ∧
    (∀ (p : ParamMap) (s t : String), cleanKeyB s = true → noDollarB s = true →
      createPrompt (tokOpen ++ s ++ "\n" ++ t) p =
        match createPrompt t p with
        | .error e => .error e
        | .ok r => .ok (tokOpen ++ s ++ "\n" ++ r)) := by
  refine ⟨?_, ?_, ?_⟩
  · intro p s hs
    exact createPrompt_tok p s hs
  · intro p s hs
    have hdata : (tokOpen ++ s).data = '$' :: '{' :: s.data := rfl
    show substRun p (tokOpen ++ s).data.length (tokOpen ++ s).data = _
    rw [hdata]
    rw [substRun_noClose p ('$' :: '{' :: s.data).length ('$' :: '{' :: s.data)
      (by
        simp only [noCloseListB, List.all_cons, Bool.and_eq_true]
        refine ⟨by decide, by decide, ?_⟩
        exact hs) (Nat.le_refl _)]
    rfl
  · intro p s t hs hsd
    have hdata : (tokOpen ++ s ++ "\n" ++ t).data =
        '$' :: '{' :: (s.data ++ '\n' :: t.data) := by
      simp only [strData_append, tokOpen_data, List.append_assoc, List.cons_append,
        List.nil_append]
    show substRun p (tokOpen ++ s ++ "\n" ++ t).data.length (tokOpen ++ s ++ "\n" ++ t).data = _
    rw [hdata]
    have hlen : ('$' :: '{' :: (s.data ++ '\n' :: t.data)).length =
        (s.data ++ '\n' :: t.data).length + 1 + 1 := by simp
    rw [hlen, substRun_dollar_brace]
    rw [findBody_of_lineTerm s.data '\n' t.data ((cleanKeyB_eq s) ▸ hs) (by decide)]
    dsimp only
    rw [substRun_append_nodollar p s.data ('\n' :: t.data) ((s.data ++ '\n' :: t.data).length + 1)
      (noDollar_mem s hsd) (by simp)]
    simp only [List.length_cons]
    rw [substRun_ne_dollar p t.data.length '\n' t.data (by decide)]
    rw [show createPrompt t p = substRun p t.data.length t.data from rfl]
    cases h : substRun p t.data.length t.data with
    | error e => rfl
    | ok r =>
      dsimp only
      show Except.ok (tokOpen ++ (String.mk s.data ++ (Char.toString '\n' ++ r))) = _
      rw [strMk_data s]
      rw [show Char.toString '\n' = "\n" from rfl]
      rw [← String.append_assoc, ← String.append_assoc]

/-- Closed instance of `c10_token_pattern` at a body containing spaces and
punctuation, an unclosed token, and a newline-interrupted token. -/
theorem c10_token_pattern_witness :
    (cleanKeyB "hello, world!" = true ∧
      createPrompt (tok "hello, world!") [("hello, world!", PValue.str "W")] =
        resolveKey [("hello, world!", PValue.str "W")] "hello, world!") ∧
    (noCloseB "abc" = true ∧
      createPrompt (tokOpen ++ "abc") [] = .ok (tokOpen ++ "abc")) ∧
    (createPrompt (tokOpen ++ "a" ++ "\n" ++ tok "k") [("k", PValue.str "V")] =
      match createPrompt (tok "k") [("k", PValue.str "V")] with
      | .error e => .error e
      | .ok r => .ok (tokOpen ++ "a" ++ "\n" ++ r)) := by
  refine ⟨⟨by decide, ?_⟩, ⟨by decide, ?_⟩, ?_⟩
  · exact c10_token_pattern.1 [("hello, world!", PValue.str "W")] "hello, world!" (by decide)
  · exact c10_token_pattern.2.1 [] "abc" (by decide)
  · exact c10_token_pattern.2.2 [("k", PValue.str "V")] "a" (tok "k") (by decide) (by decide)

/-- C8: substitution is the identity on templates containing no
placeholder token, and it is total — it never raises an error — for every
template and every parameter map of the data model (where the reserved
`diagnostics` entry, if any, is not a non-empty plain string). -/
theorem c8_identity_and_total :
    (∀ (t : String) (p : ParamMap), extractTokens t = [] →
      createPrompt t p = .ok t) ∧
    (∀ (t : String) (p : ParamMap), diagsOkB p = true →
      ∃ s, createPrompt t p = .ok s) := by
  constructor
  · intro t p hex
    have h := substRun_of_extract_nil p t.data.length t.data hex (Nat.le_refl _)
    rw [show createPrompt t p = substRun p t.data.length t.data from rfl, h, strMk_data t]
  · intro t p hd
    exact substRun_isOk p hd t.data.length t.data

/-- Closed instance of `c8_identity_and_total`: a template with a stray
dollar and an unmatched brace passes through unchanged, and substitution
with a diagnostics-free map returns a value. -/
theorem c8_identity_and_total_witness :
    (extractTokens "stray $ and \x7b unmatched" = [] ∧
      createPrompt "stray $ and \x7b unmatched" [("x", PValue.str "v")] =
        .ok "stray $ and \x7b unmatched") ∧
    (diagsOkB [("x", PValue.str "v")] = true ∧
      ∃ s, createPrompt (tok "x") [("x", PValue.str "v")] = .ok s) := by
  refine ⟨⟨by decide, ?_⟩, ⟨by decide, ?_⟩⟩
  · exact c8_identity_and_total.1 "stray $ and \x7b unmatched" [("x", PValue.str "v")] (by decide)
  · exact c8_identity_and_total.2 (tok "x") [("x", PValue.str "v")] (by decide)

/-- C5: `${diagnosticText}` substitutes to the empty string when the
diagnostics sequence is absent or empty, and otherwise to a leading
newline, the line `Current problems detected:`, and one line per record of
the form `- [<source or Error>] <message>` with a ` (<code>)` suffix only
for a truthy code; in particular a single record with only a message
yields `"\nCurrent problems detected:\n- [Error] X"`. -/
theorem c5_diagnostic_text :
    (createPrompt (tok "diagnosticText") [] = .ok "") ∧
    (∀ ds : List Diagnostic,
      createPrompt (tok "diagnosticText") [("diagnostics", PValue.diags ds)] =
        .ok (if ds.isEmpty then ""
             else "\nCurrent problems detected:\n" ++
               String.intercalate "\n" (ds.map fun d =>
                 "- [" ++ jsOrElse d.source "Error" ++ "] " ++ d.message ++
                   (match d.code with
                    | some c => if c.isEmpty then "" else " (" ++ c ++ ")"
                    | none => "")))) ∧
    (createPrompt (tok "diagnosticText")
        [("diagnostics", PValue.diags [⟨none, "X", none⟩])] =
      .ok ("\nCurrent problems detected:\n- [Error] X")) := by
  refine ⟨by decide, ?_, by decide⟩
  intro ds
  have h := createPrompt_tok [("diagnostics", PValue.diags ds)] "diagnosticText"
    (by decide)
  rw [h]
  show gdtOfValue (assocLookup [("diagnostics", PValue.diags ds)] "diagnostics") = _
  rw [show assocLookup [("diagnostics", PValue.diags ds)] "diagnostics" =
    some (PValue.diags ds) from rfl]
  show Except.ok (generateDiagnosticText ds) = _
  unfold generateDiagnosticText diagLine
  rfl

theorem assocLookup_eq_none_of_not_mem {α : Type} :
    ∀ (m : List (String × α)) (k : String), k ∉ m.map Prod.fst →
    assocLookup m k = none := by
  intro m
  induction m with
  | nil => intro k _; rfl
  | cons e rest ih =>
    intro k hk
    obtain ⟨ek, ev⟩ := e
    simp only [List.map_cons, List.mem_cons] at hk
    push_neg at hk
    show (if ek = k then some ev else assocLookup rest k) = none
    rw [if_neg (fun h => hk.1 h.symm)]
    exact ih k hk.2

/-- C3: for every kind identifier outside the six built-in enumeration
values and absent from the caller-supplied override map, the template
lookup fails with the distinguished `UnknownPromptKind` condition and
`supportPrompt.create` produces no output string — no silent fallback to
any template. -/
theorem c3_unknown_kind :
    ∀ (reg : BuiltinRegistry) (custom : Option (List (String × String)))
      (type : String) (params : ParamMap),
      type ∉ builtinKinds →
      (custom.bind fun m => assocLookup m type) = none →
      supportPromptCreate reg type params custom = .error .unknownPromptKind := by
  intro reg custom type params hmem hcust
  unfold supportPromptCreate supportPromptGet
  rw [hcust]
  rw [assocLookup_eq_none_of_not_mem reg.templates type (by rw [reg.keys_eq]; exact hmem)]

/-- Closed instance of `c3_unknown_kind` at the kind `NOT_A_KIND` with no
override map. -/
theorem c3_unknown_kind_witness :
    ("NOT_A_KIND" ∉ builtinKinds ∧
      ((none : Option (List (String × String))).bind
        fun m => assocLookup m "NOT_A_KIND") = none) ∧
    supportPromptCreate regSample "NOT_A_KIND" [] none = .error .unknownPromptKind := by
  refine ⟨⟨?_, rfl⟩, ?_⟩
  · decide
  · exact c3_unknown_kind regSample none "NOT_A_KIND" [] (by decide) rfl

/-- C1 fails on the code: re-applying the wrap-and-footer step appends the
error-handling footer a second time (the guard phrase `If you're unsure`
does not occur in the appended footer), and re-applying `addMCPContext`
with the same non-trivial payload appends the context blocks a second
time. -/
theorem c1_counterexample :
    structEnhanceStep (structEnhanceStep "") ≠ structEnhanceStep "" ∧
    addMCPContext (addMCPContext "" ctxReasoningSample) ctxReasoningSample ≠
      addMCPContext "" ctxReasoningSample :=
  ⟨by decide, by decide⟩

/-- C1 amended: only the structural wrap is idempotent.  The footer step
re-appends `errFooter` whenever the once-enhanced template still lacks the
guard phrase (which is always the case when the template itself lacks it,
since the appended footer does not contain the phrase), and
`addMCPContext` appends its rendering unconditionally, so re-application
duplicates every rendered context block; re-application is the identity
only when the rendering is empty.  The wrap-and-footer step agrees with
`createAdvancedPrompt` without a context payload, with substitution
factored out. -/
theorem c1_amended :
    (∀ t : String, wrapStep (wrapStep t) = wrapStep t) ∧
    (∀ t : String, jsIncludes (structEnhanceStep t) unsurePhrase = false →
      structEnhanceStep (structEnhanceStep t) = structEnhanceStep t ++ errFooter) ∧
    (∀ (t : String) (c : MCPContext),
      addMCPContext (addMCPContext t c) c = (t ++ renderMCP c) ++ renderMCP c) ∧
    (∀ (t : String) (p : ParamMap) (v : Bool),
      createAdvancedPrompt t p ⟨v, true, true, none⟩ =
        createPrompt (structEnhanceStep t) p) := by
  refine ⟨?_, ?_, ?_, ?_⟩
  · intro t
    by_cases h : jsIncludes t taskMarker = true
    · simp [wrapStep, h]
    · simp only [Bool.not_eq_true] at h
      have hin : jsIncludes (taskOpen ++ t ++ taskClose) taskMarker = true :=
        jsIncludes_append_left _ _ _ (jsIncludes_append_left _ _ _ (by decide))
      simp [wrapStep, h, hin]
  · intro t hph
    by_cases hm : jsIncludes t taskMarker = true
    · by_cases hp : jsIncludes t unsurePhrase = true
      · exfalso
        have : jsIncludes (structEnhanceStep t) unsurePhrase = true := by
          simp [structEnhanceStep, hm, hp]
        rw [hph] at this
        cases this
      · simp only [Bool.not_eq_true] at hp
        have h1 : structEnhanceStep t = t ++ errFooter := by
          simp [structEnhanceStep, hm, hp]
        rw [h1]
        have hm' : jsIncludes (t ++ errFooter) taskMarker = true :=
          jsIncludes_append_left _ _ _ hm
        have hp' : jsIncludes (t ++ errFooter) unsurePhrase = false := by
          rw [← h1]; exact hph
        simp [structEnhanceStep, hm', hp']
    · simp only [Bool.not_eq_true] at hm
      by_cases hp : jsIncludes t unsurePhrase = true
      · exfalso
        have hwrap : jsIncludes (taskOpen ++ t ++ taskClose) unsurePhrase = true :=
          jsIncludes_append_left _ _ _ (jsIncludes_append_right _ _ _ hp)
        have : jsIncludes (structEnhanceStep t) unsurePhrase = true := by
          simp [structEnhanceStep, hm, hp, hwrap]
        rw [hph] at this
        cases this
      · simp only [Bool.not_eq_true] at hp
        have h1 : structEnhanceStep t = (taskOpen ++ t ++ taskClose) ++ errFooter := by
          simp [structEnhanceStep, hm, hp]
        rw [h1]
        have hm' : jsIncludes ((taskOpen ++ t ++ taskClose) ++ errFooter) taskMarker = true :=
          jsIncludes_append_left _ _ _
            (jsIncludes_append_left _ _ _ (jsIncludes_append_left _ _ _ (by decide)))
        have hp' : jsIncludes ((taskOpen ++ t ++ taskClose) ++ errFooter) unsurePhrase = false := by
          rw [← h1]; exact hph
        simp [structEnhanceStep, hm', hp']
  · intro t c
    rfl
  · intro t p v
    rfl

/-- Closed instance of `c1_amended`: on the empty template the second
application of the wrap-and-footer step appends the footer again. -/
theorem c1_amended_witness :
    jsIncludes (structEnhanceStep "") unsurePhrase = false ∧
    structEnhanceStep (structEnhanceStep "") = structEnhanceStep "" ++ errFooter :=
  ⟨by decide, c1_amended.2.1 "" (by decide)⟩

/-- C2 fails on the code: in the returned prompt the context blocks appear
before the error-handling footer, not after it.  On a concrete run the
output is the wrapped template, then the reasoning block, then the footer
as the final suffix, and the reasoning-context marker never occurs at or
after the position where the footer starts. -/
theorem c2_counterexample :
    outStr pipelineSampleC2 =
      (taskOpen ++ "T" ++ taskClose ++ renderMCP ctxReasoningSample) ++ errFooter ∧
    jsIncludes (taskOpen ++ "T" ++ taskClose ++ renderMCP ctxReasoningSample)
      "<reasoning_context>" = true ∧
    jsIncludes errFooter "<reasoning_context>" = false ∧
    occursFromB (outStr pipelineSampleC2) "<reasoning_context>"
      (taskOpen ++ "T" ++ taskClose ++ renderMCP ctxReasoningSample).length = false := by
  refine ⟨by decide, by decide, by decide, by decide⟩

/-- C2 amended: with structural enhancement and a context payload both
enabled, the pipeline applies the wrap first, then appends the context
blocks, then appends the error-handling footer — so the context blocks
appear before the footer text in the returned string; the full pipeline
feeds the already-substituted base prompt into this enhancement step. -/
theorem c2_amended :
    (∀ (t : String) (p : ParamMap) (c : MCPContext),
      jsIncludes t taskMarker = false → jsIncludes t unsurePhrase = false →
      createAdvancedPrompt t p ⟨true, true, true, some c⟩ =
        createPrompt (((taskOpen ++ t ++ taskClose) ++ renderMCP c) ++ errFooter) p) ∧
    (∀ (reg : BuiltinRegistry) (type : String) (params : ParamMap) (c : MCPContext)
      (custom : Option (List (String × String))) (base : String),
      supportPromptCreate reg type params custom = .ok base →
      createMCPEnhancedPrompt reg type params (some c) custom =
        createAdvancedPrompt base params ⟨true, true, true, some c⟩) := by
  constructor
  · intro t p c h1 h2
    simp [createAdvancedPrompt, addMCPContext, h1, h2]
  · intro reg type params c custom base h
    unfold createMCPEnhancedPrompt
    rw [h]

/-- Closed instance of `c2_amended` on a small custom template. -/
theorem c2_amended_witness :
    (jsIncludes "T" taskMarker = false ∧ jsIncludes "T" unsurePhrase = false ∧
      createAdvancedPrompt "T" [] ⟨true, true, true, some ctxReasoningSample⟩ =
        createPrompt
          (((taskOpen ++ "T" ++ taskClose) ++ renderMCP ctxReasoningSample) ++ errFooter)
          []) ∧
    (supportPromptCreate regSample "ENHANCE" [] (some [("ENHANCE", "T")]) = .ok "T" ∧
      createMCPEnhancedPrompt regSample "ENHANCE" [] (some ctxReasoningSample)
          (some [("ENHANCE", "T")]) =
        createAdvancedPrompt "T" [] ⟨true, true, true, some ctxReasoningSample⟩) := by
  refine ⟨⟨by decide, by decide, ?_⟩, ⟨?_, ?_⟩⟩
  · exact c2_amended.1 "T" [] ctxReasoningSample (by decide) (by decide)
  · decide
  · exact c2_amended.2 regSample "ENHANCE" [] ctxReasoningSample
      (some [("ENHANCE", "T")]) "T" (by decide)

/-- C6 fails on the code: at the payload `ctxReasoningSample` the
reasoning block is emitted and the confidence value 0 (present and inside
the range from 0 to 1) renders no confidence line, because the renderer
tests the value for JavaScript truthiness rather than presence. -/
theorem c6_counterexample :
    jsIncludes (addMCPContext "" ctxReasoningSample) "<reasoning_context>" = true ∧
    jsIncludes (addMCPContext "" ctxReasoningSample) "Confidence:" = false ∧
    ctxReasoningSample.reasoning = some ⟨"s", "", "", 0⟩ :=
  ⟨by decide, by decide, rfl⟩

/-- C6 amended: the reasoning block is appended exactly when a non-empty
(truthy) thinking-process string is present; within the block the
hypothesis and verification lines appear exactly when their string is
non-empty, and the confidence line — `confidence_level * 100` followed by
a percent sign — appears exactly when the confidence value is non-zero. -/
theorem c6_reasoning_truthiness :
    (∀ c : MCPContext, c.reasoning = none → reasoningPart c = "") ∧
    (∀ (c : MCPContext) (r : Reasoning), c.reasoning = some r →
      r.thinking_process.isEmpty = true → reasoningPart c = "") ∧
    (∀ (c : MCPContext) (r : Reasoning), c.reasoning = some r →
      r.thinking_process.isEmpty = false →
      reasoningPart c =
        "\n\n<reasoning_context>\n**SYSTEMATIC THINKING PROCESS:**\n" ++
        "Process: " ++ r.thinking_process ++ "\n" ++
        (if r.hypothesis.isEmpty then "" else "Hypothesis: " ++ r.hypothesis ++ "\n") ++
        (if r.verification.isEmpty then "" else "Verification: " ++ r.verification ++ "\n") ++
        (if r.confidence_level = 0 then ""
         else "Confidence: " ++ numStr (r.confidence_level * 100) ++ "%\n") ++
        "\nUse this systematic approach in your analysis and recommendations.\n</reasoning_context>") := by
  refine ⟨?_, ?_, ?_⟩
  · intro c h
    simp [reasoningPart, h]
  · intro c r h ht
    simp [reasoningPart, h, ht]
  · intro c r h ht
    simp [reasoningPart, h, ht]

/-- Closed instance of `c6_reasoning_truthiness` at a reasoning record
with all fields truthy; the confidence 4/5 renders as 80 percent. -/
theorem c6_reasoning_truthiness_witness :
    (ctxReasoningFull.reasoning = some ⟨"steps", "hyp", "ver", 4/5⟩ ∧
      ("steps" : String).isEmpty = false) ∧
    reasoningPart ctxReasoningFull =
      "\n\n<reasoning_context>\n**SYSTEMATIC THINKING PROCESS:**\n" ++
      "Process: " ++ "steps" ++ "\n" ++
      (if ("hyp" : String).isEmpty then "" else "Hypothesis: " ++ "hyp" ++ "\n") ++
      (if ("ver" : String).isEmpty then "" else "Verification: " ++ "ver" ++ "\n") ++
      (if (4/5 : ℚ) = 0 then "" else "Confidence: " ++ numStr ((4/5 : ℚ) * 100) ++ "%\n") ++
      "\nUse this systematic approach in your analysis and recommendations.\n</reasoning_context>" := by
  refine ⟨⟨rfl, by decide⟩, ?_⟩
  exact c6_reasoning_truthiness.2.2 ctxReasoningFull ⟨"steps", "hyp", "ver", 4/5⟩ rfl (by decide)

/-- C7 fails on the code: at the payload `ctxQualityNoMetrics` (one issue,
no metrics object) the emitted quality block contains the
`**Quality Metrics:**` heading even though the metrics object is absent;
only the four metric value lines are suppressed. -/
theorem c7_counterexample :
    jsIncludes (addMCPContext "" ctxQualityNoMetrics) "**Quality Metrics:**" = true ∧
    jsIncludes (addMCPContext "" ctxQualityNoMetrics) "- Grade:" = false ∧
    ctxQualityNoMetrics.codeQuality = some ⟨[⟨"Style", "High", "msg", none, none⟩], none⟩ :=
  ⟨by decide, by decide, rfl⟩

/-- C7 amended: the quality block is emitted exactly when the issues list
is non-empty; it lists every issue with its optional file and line
sub-line; the `**Quality Metrics:**` heading is emitted in every quality
block, regardless of the metrics object, and the four metric value lines
are appended only when the metrics object is present. -/
theorem c7_quality_block :
    (∀ c : MCPContext, c.codeQuality = none → qualityPart c = "") ∧
    (∀ (c : MCPContext) (q : CodeQuality), c.codeQuality = some q →
      q.issues.isEmpty = true → qualityPart c = "") ∧
    (∀ (c : MCPContext) (q : CodeQuality), c.codeQuality = some q →
      q.issues.isEmpty = false →
      qualityPart c =
        "\n\n<code_quality_context>\n**CURRENT CODE QUALITY ISSUES TO ADDRESS:**\n" ++
        String.join (q.issues.map issueLine) ++
        "\n**Quality Metrics:**\n" ++
        (match q.metrics with
         | some m => metricsLines m
         | none => "") ++
        "\nPlease address these quality issues in your recommendations.\n</code_quality_context>") := by
  refine ⟨?_, ?_, ?_⟩
  · intro c h
    simp [qualityPart, h]
  · intro c q h hq
    simp [qualityPart, h, hq]
  · intro c q h hq
    simp [qualityPart, h, hq]

/-- Closed instance of `c7_quality_block` at a payload with one issue and
no metrics: the heading is emitted with no metric value lines. -/
theorem c7_quality_block_witness :
    (ctxQualityNoMetrics.codeQuality = some ⟨[⟨"Style", "High", "msg", none, none⟩], none⟩ ∧
      ([⟨"Style", "High", "msg", none, none⟩] : List QualityIssue).isEmpty = false) ∧
    qualityPart ctxQualityNoMetrics =
      "\n\n<code_quality_context>\n**CURRENT CODE QUALITY ISSUES TO ADDRESS:**\n" ++
      String.join (([⟨"Style", "High", "msg", none, none⟩] : List QualityIssue).map issueLine) ++
      "\n**Quality Metrics:**\n" ++
      "" ++
      "\nPlease address these quality issues in your recommendations.\n</code_quality_context>" := by
  refine ⟨⟨rfl, by decide⟩, ?_⟩
  exact c7_quality_block.2.2 ctxQualityNoMetrics ⟨[⟨"Style", "High", "msg", none, none⟩], none⟩
    rfl (by decide)

/-- C9 fails on the code: the full pipeline substitutes twice, so a token
introduced by a parameter value during the first pass (template
resolution) does not survive — at `pipelineSampleC9` the value `${b}` of
parameter `a` has been resolved to `X` in the final output and the literal
token `${b}` is gone, while the token `${tp}` inside the context payload
text is substituted as the claim states. -/
theorem c9_counterexample :
    jsIncludes (outStr pipelineSampleC9) "CTXVAL" = true ∧
    jsIncludes (outStr pipelineSampleC9) "X" = true ∧
    jsIncludes (outStr pipelineSampleC9) (tok "b") = false :=
  ⟨by decide, by decide, by decide⟩

/-- C9 amended: the pipeline substitutes twice — once at template
resolution and once after enhancement, with the context text injected
before the second pass (so tokens in context text are substituted) — and
within a single substitution pass a replacement value is emitted verbatim
and never re-scanned, so only tokens introduced during the final pass
survive literally. -/
theorem c9_two_pass :
    (∀ (reg : BuiltinRegistry) (type : String) (params : ParamMap)
      (mcp : Option MCPContext) (custom : Option (List (String × String)))
      (tmpl : String),
      supportPromptGet reg custom type = .ok tmpl →
      createMCPEnhancedPrompt reg type params mcp custom =
        match createPrompt tmpl params with
        | .error e => .error e
        | .ok base => createAdvancedPrompt base params ⟨true, true, true, mcp⟩) ∧
    (∀ (p : ParamMap) (k v pre suf : String),
      cleanKeyB k = true → k ≠ "diagnosticText" →
      assocLookup p k = some (PValue.str v) → noDollarB pre = true →
      createPrompt (pre ++ tok k ++ suf) p =
        match createPrompt suf p with
        | .error e => .error e
        | .ok s => .ok (pre ++ (v ++ s))) := by
  constructor
  · intro reg type params mcp custom tmpl h
    unfold createMCPEnhancedPrompt supportPromptCreate
    rw [h]
  · intro p k v pre suf hk hne hl hpre
    rw [createPrompt_split p pre k suf hk hpre]
    have hr : resolveKey p k = .ok v := by
      unfold resolveKey
      rw [if_neg hne, hl]
      rfl
    rw [hr]


/-- Closed instance of `c9_two_pass` at the pipeline sample: the custom
template `${a}` resolves first, and in a single pass the value `${b}` of
`a` is emitted verbatim. -/
theorem c9_two_pass_witness :
    (supportPromptGet regSample (some [("ENHANCE", tok "a")]) "ENHANCE" = .ok (tok "a") ∧
      createMCPEnhancedPrompt regSample "ENHANCE" paramsC9 (some ctxC9)
          (some [("ENHANCE", tok "a")]) =
        match createPrompt (tok "a") paramsC9 with
        | .error e => .error e
        | .ok base => createAdvancedPrompt base paramsC9 ⟨true, true, true, some ctxC9⟩) ∧
    (cleanKeyB "a" = true ∧
      assocLookup paramsC9 "a" = some (PValue.str (tok "b")) ∧
      createPrompt ("" ++ tok "a" ++ "") paramsC9 =
        match createPrompt "" paramsC9 with
        | .error e => .error e
        | .ok s => .ok ("" ++ (tok "b" ++ s))) := by
  refine ⟨⟨by decide, ?_⟩, ⟨by decide, by decide, ?_⟩⟩
  · exact c9_two_pass.1 regSample "ENHANCE" paramsC9 (some ctxC9)
      (some [("ENHANCE", tok "a")]) (tok "a") (by decide)
  · exact c9_two_pass.2 paramsC9 "a" (tok "b") "" "" (by decide) (by decide)
      (by decide) (by decide)
